import Mathlib

/-!
Verification of the stitch lifecycle core (finish/cascade subsystem and the
parent-child index) against its specification.

The TypeScript sources are shallowly embedded:
* `src/core/model.ts`   — data model (`StitchStatus`, `StitchFrontmatter`, `StitchDoc`).
* `src/core/indexing.ts` — the parent-child index (`getDescendants`, `rebuildIndex`).
* `src/core/finish.ts`  — the lifecycle engine (`prepareFinish`, `executeFinish`).

Modelling conventions:
* Asynchronous file-system access is embedded as explicit state: an
  environment `Env` provides the results of `loadStitch` and the persisted
  index, and the write phase of `executeFinish` acts on an explicit file
  system `FS`, a total map from file paths to file contents.
* File contents are represented in parsed form (frontmatter plus body).  The
  external TOML encoder (`smol-toml`, used by `serializeStitchFile`) is a
  deterministic injective encoding, so on-disk byte strings are modelled by
  the pair they encode, and `serializeStitchFile` is the pairing function.
* The wall clock (`new Date().toISOString()`) is passed in as an explicit
  `now : String` argument.
* Write failures (`writeFile` throwing) are environmental; they are modelled
  by an explicit schedule: `failAt : Option Nat` forces the k-th forward
  write to fail, and `rbOk : Nat -> Bool` tells whether the i-th rollback
  write succeeds.
-/

/-- Model of `StitchStatus` from `src/core/model.ts`: `"open" | "closed" | "superseded" | "abandoned"`. -/
inductive StitchStatus where
  | «open»
  | closed
  | superseded
  | abandoned
deriving DecidableEq, Repr

/-- Model of `TerminalStatus` from `src/core/finish.ts`: `"closed" | "superseded" | "abandoned"`. -/
inductive TerminalStatus where
  | closed
  | superseded
  | abandoned
deriving DecidableEq, Repr

/-- Inclusion of terminal statuses into statuses (in TS both are string unions). -/
def TerminalStatus.toStatus : TerminalStatus → StitchStatus
  | .closed => .closed
  | .superseded => .superseded
  | .abandoned => .abandoned

/-- Model of `StitchId` from `src/core/model.ts`. -/
abbrev StitchId := String

/-- Model of `GitLink` from `src/core/model.ts` (a commit sha or a commit range). -/
inductive GitLink where
  | commit (sha : String)
  | range (range : String)
deriving DecidableEq, Repr

/-- Model of `DiffFingerprint` from `src/core/model.ts` (`algo` is always `"sha256"`). -/
structure DiffFingerprint where
  kind : String
  value : String
deriving DecidableEq, Repr

/-- Model of `StitchScope` from `src/core/model.ts`. -/
structure StitchScope where
  paths : Option (List String) := none
deriving DecidableEq, Repr

/-- Model of `StitchRelations` from `src/core/model.ts`. -/
structure StitchRelations where
  parent : Option StitchId := none
  depends_on : Option (List StitchId) := none
deriving DecidableEq, Repr

/-- Model of `StitchGit` from `src/core/model.ts`. -/
structure StitchGit where
  links : Option (List GitLink) := none
  fingerprints : Option (List DiffFingerprint) := none
deriving DecidableEq, Repr

/-- Model of `StitchFrontmatter` from `src/core/model.ts`. -/
structure StitchFrontmatter where
  id : StitchId
  title : String
  status : StitchStatus
  created_at : String
  updated_at : String
  provenance : Option String := none
  confidence : Option String := none
  tags : Option (List String) := none
  scope : Option StitchScope := none
  relations : Option StitchRelations := none
  git : Option StitchGit := none
deriving DecidableEq, Repr

/-- Model of `StitchDoc` from `src/core/model.ts`. -/
structure StitchDoc where
  frontmatter : StitchFrontmatter
  body : String
  filePath : String
deriving DecidableEq, Repr

/-- On-disk content of a stitch file, in parsed form (frontmatter and body).
The external TOML encoder is deterministic and injective, so the byte string of a file is represented by the pair it encodes. -/
abbrev FileContent := StitchFrontmatter × String

/-- Model of `serializeStitchFile` from `src/core/frontmatter.ts`, modelled at the level
of parsed content (see `FileContent`). -/
def serializeStitchFile (frontmatter : StitchFrontmatter) (body : String) : FileContent :=
  (frontmatter, body)

/-- Model of `updateTimestamp` from `src/core/frontmatter.ts`; the clock value is an
explicit argument. -/
def updateTimestamp (now : String) (frontmatter : StitchFrontmatter) : StitchFrontmatter :=
  { frontmatter with updated_at := now }

/-- The file system: a total map from file paths to stitch-file contents. -/
abbrev FS := String → FileContent

/-- Model of `writeFile`: overwrite the content at one path. -/
def fsWrite (fs : FS) (path : String) (content : FileContent) : FS :=
  fun q => if q = path then content else fs q

/-! Parent-child index (`src/core/indexing.ts`) -/

/-- The `children` record of the persisted index (`StitchIndex.children` in
`src/core/indexing.ts`): a JavaScript object, i.e. an association list whose
key order is first-insertion order. -/
abbrev ChildrenMap := List (StitchId × List StitchId)

/-- Model of `index.children[id] ?? []`: object lookup defaulting to the empty list. -/
def lookupChildren (children : ChildrenMap) (id : StitchId) : List StitchId :=
  match children.find? (fun e => e.1 == id) with
  | some e => e.2
  | none => []

/-- The body of the `while` loop of `getDescendants` in `src/core/indexing.ts`:
pop `currentId`; if unvisited, mark it visited and append its children both to
the result (`acc`) and to the queue. -/
def getDescendantsAux (children : ChildrenMap) :
    List StitchId → List StitchId → List StitchId → List StitchId
  | [], _, acc => acc
  | currentId :: rest, visited, acc =>
    if currentId ∈ visited then
      getDescendantsAux children rest visited acc
    else
      let cs := lookupChildren children currentId
      getDescendantsAux children (rest ++ cs) (currentId :: visited) (acc ++ cs)
termination_by queue visited _ =>
  (((children.map Prod.fst).filter (fun k => k ∉ visited)).length, queue.length)
decreasing_by
  · apply Prod.Lex.right
    simp
  · rename_i hvis
    have hle : ∀ (l : List StitchId) (a : StitchId) (vs : List StitchId),
        (l.filter (fun k => k ∉ a :: vs)).length ≤ (l.filter (fun k => k ∉ vs)).length := by
      intro l a vs
      induction l with
      | nil => simp
      | cons b l' ih =>
        simp only [List.filter_cons]
        by_cases hb : b ∈ vs
        · have h1 : (decide (b ∉ a :: vs)) = false := by simp [hb]
          have h2 : (decide (b ∉ vs)) = false := by simp [hb]
          simp only [h1, h2, Bool.false_eq_true, if_false]
          exact ih
        · by_cases hba : b = a
          · have h1 : (decide (b ∉ a :: vs)) = false := by simp [hba]
            have h2 : (decide (b ∉ vs)) = true := by simp [hb]
            simp only [h1, h2, Bool.false_eq_true, if_false, if_true, List.length_cons]
            omega
          · have h1 : (decide (b ∉ a :: vs)) = true := by simp [hb, hba]
            have h2 : (decide (b ∉ vs)) = true := by simp [hb]
            simp only [h1, h2, if_true, List.length_cons]
            omega
    have hlt : ∀ (l : List StitchId) (a : StitchId) (vs : List StitchId), a ∈ l → a ∉ vs →
        (l.filter (fun k => k ∉ a :: vs)).length < (l.filter (fun k => k ∉ vs)).length := by
      intro l a vs
      induction l with
      | nil => intro ha _; cases ha
      | cons b l' ih =>
        intro ha hvs
        simp only [List.filter_cons]
        by_cases hba : b = a
        · subst hba
          have h1 : (decide (b ∉ b :: vs)) = false := by simp
          have h2 : (decide (b ∉ vs)) = true := by simp [hvs]
          simp only [h1, h2, Bool.false_eq_true, if_false, if_true, List.length_cons]
          have := hle l' b vs
          omega
        · have ha' : a ∈ l' := by
            cases ha with
            | head => exact absurd rfl hba
            | tail _ h => exact h
          have hltl := ih ha' hvs
          by_cases hb : b ∈ vs
          · have h1 : (decide (b ∉ a :: vs)) = false := by simp [hb]
            have h2 : (decide (b ∉ vs)) = false := by simp [hb]
            simp only [h1, h2, Bool.false_eq_true, if_false]
            exact hltl
          · have h1 : (decide (b ∉ a :: vs)) = true := by simp [hb, hba]
            have h2 : (decide (b ∉ vs)) = true := by simp [hb]
            simp only [h1, h2, if_true, List.length_cons]
            omega
    by_cases hk : currentId ∈ children.map Prod.fst
    · exact Prod.Lex.left _ _ (hlt (children.map Prod.fst) currentId visited hk hvis)
    · have hcongr : ∀ (l : List StitchId) (a : StitchId) (vs : List StitchId), a ∉ l →
          l.filter (fun k => k ∉ a :: vs) = l.filter (fun k => k ∉ vs) := by
        intro l a vs
        induction l with
        | nil => intro _; rfl
        | cons b l' ih =>
          intro ha
          have hba : b ≠ a := fun h => ha (h ▸ List.mem_cons_self b l')
          have ha' : a ∉ l' := fun h => ha (List.mem_cons_of_mem b h)
          simp only [List.filter_cons]
          have : (decide (b ∉ a :: vs)) = (decide (b ∉ vs)) := by
            simp [List.mem_cons, hba]
          rw [this, ih ha']
      have hcs : lookupChildren children currentId = [] := by
        unfold lookupChildren
        have : children.find? (fun e => e.1 == currentId) = none := by
          apply List.find?_eq_none.mpr
          intro e he
          simp only [beq_iff_eq]
          intro hc
          exact hk (List.mem_map.mpr ⟨e, he, hc⟩)
        rw [this]
      rw [hcs, hcongr (children.map Prod.fst) currentId visited hk]
      apply Prod.Lex.right
      simp

/-- Model of `getDescendants` from `src/core/indexing.ts`: breadth-first traversal of
the children map starting from `id`. -/
def getDescendants (children : ChildrenMap) (id : StitchId) : List StitchId :=
  getDescendantsAux children [id] [] []

/-- Model of `getChildren` from `src/core/indexing.ts`. -/
def getChildren (children : ChildrenMap) (id : StitchId) : List StitchId :=
  lookupChildren children id

/-- Model of `index.children[parentId].push(id)` preceded by creation of the entry when
absent (`rebuildIndex` in `src/core/indexing.ts`); JavaScript objects keep
first-insertion key order. -/
def addToChildren (m : ChildrenMap) (parentId childId : StitchId) : ChildrenMap :=
  match m with
  | [] => [(parentId, [childId])]
  | (k, cs) :: rest =>
    if k == parentId then (k, cs ++ [childId]) :: rest
    else (k, cs) :: addToChildren rest parentId childId

/-- Model of `rebuildIndex` from `src/core/indexing.ts`, restricted to the `children`
map it builds: scan the documents (the result of `listStitches`) in order and
group them by `relations.parent`. -/
def rebuildIndex (docs : List StitchDoc) : ChildrenMap :=
  docs.foldl
    (fun m doc =>
      match doc.frontmatter.relations.bind (fun r => r.parent) with
      | some parentId => addToChildren m parentId doc.frontmatter.id
      | none => m)
    []

/-! Lifecycle engine (`src/core/finish.ts`) -/

/-- Model of `FinishOptions` from `src/core/finish.ts`. -/
structure FinishOptions where
  status : Option TerminalStatus := none
  supersededBy : Option StitchId := none
  force : Bool := false
  skipConfirmation : Bool := false
deriving DecidableEq, Repr

/-- Model of `FinishedStitch` from `src/core/finish.ts`. -/
structure FinishedStitch where
  id : StitchId
  title : String
  previousStatus : StitchStatus
  newStatus : TerminalStatus
deriving DecidableEq, Repr

/-- Model of `FinishResult` from `src/core/finish.ts`. -/
structure FinishResult where
  finished : List FinishedStitch
  warnings : List String
  autoDetectedStatus : Bool
  finalStatus : TerminalStatus
deriving DecidableEq, Repr

/-- Model of `FinishPreview` from `src/core/finish.ts`. -/
structure FinishPreview where
  target : StitchDoc
  affected : List StitchDoc
  finalStatus : TerminalStatus
  autoDetected : Bool
  warnings : List String
  requiresConfirmation : Bool
  forceRequired : Option String := none
deriving DecidableEq, Repr

/-- The error classes of `src/core/errors.ts` that the lifecycle engine throws. -/
inductive StitchErr where
  | notInitialized
  | stitchNotFound (id : StitchId)
  | invalidSupersededBy
  | supersedingNotFound (id : StitchId)
  | forceRequired (message : String)
  | ioFailure (failedIndex : Nat)
deriving DecidableEq, Repr

/-- The store and index as the engine observes them: `docs id` is the result of
`loadStitch` (`none` when the file is absent or unparsable), `children` is the
persisted index map consulted by `getDescendants`, and `initialized` is
`isInitialized` of `src/core/store.ts`. -/
structure Env where
  initialized : Bool
  docs : StitchId → Option StitchDoc
  children : ChildrenMap

/-- Model of `hasLinkedCommits` from `src/core/finish.ts`:
`links !== undefined && links.length > 0` on `doc.frontmatter.git?.links`
(diff fingerprints are not consulted). -/
def hasLinkedCommits (doc : StitchDoc) : Bool :=
  match doc.frontmatter.git.bind (fun g => g.links) with
  | some links => decide (0 < links.length)
  | none => false

/-- Model of `shouldAutoAbandon` from `src/core/finish.ts`; `some reason` stands for
`{ autoAbandon: true, reason }` and `none` for `{ autoAbandon: false }`. -/
def shouldAutoAbandon (doc : StitchDoc) (descendants : List StitchDoc) : Option String :=
  if hasLinkedCommits doc = false then
    some "No linked commits"
  else
    let openDescendants := descendants.filter (fun d => d.frontmatter.status = StitchStatus.«open»)
    if 0 < openDescendants.length then
      some ("Has " ++ toString openDescendants.length ++ " open children")
    else
      none

/-- The descendant-loading loop of `prepareFinish`: load each descendant id in
order, collecting loaded documents and a warning for each one that fails to
load. -/
def loadDescendants (env : Env) : List StitchId → List StitchDoc × List String
  | [] => ([], [])
  | descId :: rest =>
    let (docs, warns) := loadDescendants env rest
    match env.docs descId with
    | some doc => (doc :: docs, warns)
    | none => (docs, ("Warning: Could not load descendant " ++ descId) :: warns)

/-- The auto-detection block of `prepareFinish` (lines 164-189 of
`src/core/finish.ts`): given the check result, the requested status, the force
flag and the warnings so far, produce
`(finalStatus, autoDetected, forceRequired, warnings)`. -/
def resolveStatus (check : Option String) (status : TerminalStatus) (force : Bool)
    (warnings : List String) : TerminalStatus × Bool × Option String × List String :=
  match check with
  | some reason =>
    if status ≠ TerminalStatus.abandoned then
      if force then
        (status, false, none,
          warnings ++ ["Warning: " ++ reason ++ ". Forcing status as requested."])
      else
        (TerminalStatus.abandoned, true,
          some ("Cannot set requested status when " ++ reason.toLower ++
            ". Use --force to override, or --status=abandoned."),
          warnings ++ ["Warning: " ++ reason ++ ". Marking as abandoned."])
    else (status, false, none, warnings)
  | none => (status, false, none, warnings)

/-- Lines 150-210 of `prepareFinish`: given the loaded target, compute the
preview (descendant loading, auto-detection, affected set, confirmation flag). -/
def mkPreviewFrom (env : Env) (id : StitchId) (options : FinishOptions)
    (target : StitchDoc) : FinishPreview :=
  let status := options.status.getD TerminalStatus.closed
  let force := options.force
  let (descendants, warnings0) := loadDescendants env (getDescendants env.children id)
  let r := resolveStatus (shouldAutoAbandon target descendants) status force warnings0
  let finalStatus := r.1
  let affected := target ::
    descendants.filter (fun d => d.frontmatter.status ≠ finalStatus.toStatus)
  { target := target
    affected := affected
    finalStatus := finalStatus
    autoDetected := r.2.1
    warnings := r.2.2.2
    requiresConfirmation := decide (2 ≤ affected.length)
    forceRequired := if force then none else r.2.2.1 }

/-- Model of `prepareFinish` from `src/core/finish.ts`: validation, target load, and
preview computation; no writes. -/
def prepareFinish (env : Env) (id : StitchId) (options : FinishOptions) :
    Except StitchErr FinishPreview :=
  if env.initialized = false then
    .error .notInitialized
  else
    let status := options.status.getD TerminalStatus.closed
    if options.supersededBy.isSome ∧ status ≠ TerminalStatus.superseded then
      .error .invalidSupersededBy
    else
      match options.supersededBy with
      | some sb =>
        match env.docs sb with
        | none => .error (.supersedingNotFound sb)
        | some _ =>
          match env.docs id with
          | none => .error (.stitchNotFound id)
          | some target => .ok (mkPreviewFrom env id options target)
      | none =>
        match env.docs id with
        | none => .error (.stitchNotFound id)
        | some target => .ok (mkPreviewFrom env id options target)

/-- The frontmatter update of `executeFinish` (lines 236-257 of
`src/core/finish.ts`): set the status, append `supersededBy` to `depends_on`
(deduplicated) when this document is the target, and refresh the timestamp. -/
def mkUpdatedFrontmatter (finalStatus : TerminalStatus) (supersededBy : Option StitchId)
    (targetId : StitchId) (now : String) (fm : StitchFrontmatter) : StitchFrontmatter :=
  let fm1 := { fm with status := finalStatus.toStatus }
  let fm2 :=
    match supersededBy with
    | some sb =>
      if fm.id = targetId then
        let rel := fm1.relations.getD {}
        let existingDependsOn := rel.depends_on.getD []
        if sb ∈ existingDependsOn then fm1
        else { fm1 with relations := some { rel with depends_on := some (existingDependsOn ++ [sb]) } }
      else fm1
    | none => fm1
  updateTimestamp now fm2

/-- One entry of the `updates` array of `executeFinish`. -/
structure FinishUpdate where
  filePath : String
  originalContent : FileContent
  newContent : FileContent
deriving DecidableEq, Repr

/-- The preparation loop of `executeFinish` (lines 232-276): for each affected
document read its original content and compute its new serialized content. -/
def mkUpdate (finalStatus : TerminalStatus) (supersededBy : Option StitchId)
    (targetId : StitchId) (now : String) (fs : FS) (doc : StitchDoc) : FinishUpdate :=
  { filePath := doc.filePath
    originalContent := fs doc.filePath
    newContent :=
      serializeStitchFile
        (mkUpdatedFrontmatter finalStatus supersededBy targetId now doc.frontmatter)
        doc.body }

/-- The `finished.push` of the preparation loop of `executeFinish`. -/
def mkFinished (finalStatus : TerminalStatus) (doc : StitchDoc) : FinishedStitch :=
  { id := doc.frontmatter.id
    title := doc.frontmatter.title
    previousStatus := doc.frontmatter.status
    newStatus := finalStatus }

/-- The forward write loop of `executeFinish` (lines 281-285): write each
update in order; `failAt = some k` makes the k-th `writeFile` call throw.
`.inl fs` means all writes succeeded; `.inr (k, fs)` means write `k` failed
with the file system in state `fs` (writes `0..k-1` applied). -/
def applyWritesAux (updates : List FinishUpdate) (i : Nat) (failAt : Option Nat)
    (fs : FS) : FS ⊕ (Nat × FS) :=
  match updates with
  | [] => .inl fs
  | u :: rest =>
    if failAt = some i then .inr (i, fs)
    else applyWritesAux rest (i + 1) failAt (fsWrite fs u.filePath u.newContent)

/-- The rollback loop of `executeFinish` (lines 287-296): rewrite each
already-written file back to its captured original content; a rollback write
whose own `writeFile` fails (`rbOk i = false`) is swallowed (best effort). -/
def rollbackWrites (written : List FinishUpdate) (i : Nat) (rbOk : Nat → Bool)
    (fs : FS) : FS :=
  match written with
  | [] => fs
  | u :: rest =>
    rollbackWrites rest (i + 1) rbOk
      (if rbOk i then fsWrite fs u.filePath u.originalContent else fs)

/-- Model of `executeFinish` from `src/core/finish.ts`: the force guard, the
preparation loop, and the all-or-nothing write phase with rollback on
failure.  Returns the thrown error or the `FinishResult`, together with the
resulting file system. -/
def executeFinish (preview : FinishPreview) (options : FinishOptions) (now : String)
    (fs : FS) (failAt : Option Nat) (rbOk : Nat → Bool) :
    Except StitchErr FinishResult × FS :=
  match preview.forceRequired with
  | some msg => (.error (.forceRequired msg), fs)
  | none =>
    let targetId := preview.target.frontmatter.id
    let updates := preview.affected.map
      (mkUpdate preview.finalStatus options.supersededBy targetId now fs)
    let finished := preview.affected.map (mkFinished preview.finalStatus)
    match applyWritesAux updates 0 failAt fs with
    | .inl fs1 =>
      (.ok { finished := finished
             warnings := preview.warnings
             autoDetectedStatus := preview.autoDetected
             finalStatus := preview.finalStatus }, fs1)
    | .inr (k, fs1) =>
      (.error (.ioFailure k), rollbackWrites (updates.take k) 0 rbOk fs1)

/-- Model of `finishStitch` from `src/core/finish.ts`: prepare then execute. -/
def finishStitch (env : Env) (id : StitchId) (options : FinishOptions) (now : String)
    (fs : FS) (failAt : Option Nat) (rbOk : Nat → Bool) :
    Except StitchErr FinishResult × FS :=
  match prepareFinish env id options with
  | .error e => (.error e, fs)
  | .ok preview => executeFinish preview options now fs failAt rbOk

-- SCRATCH
example : getDescendants [("A", ["B"]), ("B", ["A"])] "A" = ["B", "A"] := by
  simp [getDescendants, getDescendantsAux, lookupChildren]
example : getDescendants [] "A" = [] := by
  simp [getDescendants, getDescendantsAux, lookupChildren]
example : getDescendants [("P", ["C"])] "P" = ["C"] := by
  simp [getDescendants, getDescendantsAux, lookupChildren]

/-- Forward write phase applied to a prefix of updates (the state of the file
system when the k-th write of `executeFinish` fails). -/
def forwardWrites (updates : List FinishUpdate) (fs : FS) : FS :=
  updates.foldl (fun acc u => fsWrite acc u.filePath u.newContent) fs

/-! Concrete instances used in witnesses and counterexamples -/

/-- A stitch with no git links and no children ("document A" of the spec). -/
def fmA : StitchFrontmatter :=
  { id := "A", title := "A", status := .«open», created_at := "t0", updated_at := "t0" }

/-- The document for `fmA`. -/
def docA : StitchDoc := { frontmatter := fmA, body := "bodyA", filePath := "/s/A.md" }

/-- Store containing only `docA`, with an empty index. -/
def envA : Env :=
  { initialized := true
    docs := fun i => if i = "A" then some docA else none
    children := [] }

/-- Parent stitch with one linked commit. -/
def fmP : StitchFrontmatter :=
  { id := "P", title := "P", status := .«open», created_at := "t0", updated_at := "t0",
    git := some { links := some [.commit "abc123"] } }

/-- The document for `fmP`. -/
def docP : StitchDoc := { frontmatter := fmP, body := "bodyP", filePath := "/s/P.md" }

/-- Open child of `docP`. -/
def fmC : StitchFrontmatter :=
  { id := "C", title := "C", status := .«open», created_at := "t0", updated_at := "t0",
    relations := some { parent := some "P" } }

/-- The document for `fmC`. -/
def docC : StitchDoc := { frontmatter := fmC, body := "bodyC", filePath := "/s/C.md" }

/-- Store containing `docP` with open child `docC`. -/
def envP : Env :=
  { initialized := true
    docs := fun i => if i = "P" then some docP else if i = "C" then some docC else none
    children := [("P", ["C"])] }

/-- Target with one linked commit whose descendant already has the requested
status. -/
def fmT4 : StitchFrontmatter :=
  { id := "T4", title := "T4", status := .«open», created_at := "t0", updated_at := "t0",
    git := some { links := some [.commit "def456"] } }

/-- The document for `fmT4`. -/
def docT4 : StitchDoc := { frontmatter := fmT4, body := "bodyT4", filePath := "/s/T4.md" }

/-- Descendant of `docT4` that is already `closed`. -/
def fmD4 : StitchFrontmatter :=
  { id := "D4", title := "D4", status := .closed, created_at := "t0", updated_at := "t0",
    relations := some { parent := some "T4" } }

/-- The document for `fmD4`. -/
def docD4 : StitchDoc := { frontmatter := fmD4, body := "bodyD4", filePath := "/s/D4.md" }

/-- Store containing `docT4` with already-closed child `docD4`. -/
def envC4 : Env :=
  { initialized := true
    docs := fun i => if i = "T4" then some docT4 else if i = "D4" then some docD4 else none
    children := [("T4", ["D4"])] }

/-- A concrete initial file system agreeing with the stores above. -/
def fsInit : FS := fun path =>
  if path = "/s/P.md" then (fmP, "bodyP")
  else if path = "/s/C.md" then (fmC, "bodyC")
  else if path = "/s/T4.md" then (fmT4, "bodyT4")
  else if path = "/s/D4.md" then (fmD4, "bodyD4")
  else (fmA, "bodyA")

/-- Rollback schedule on which every rollback write succeeds. -/
def rbAllOk : Nat → Bool := fun _ => true

/-- A children map with a cycle through `"A"`. -/
def cyclicChildren : ChildrenMap := [("A", ["B"]), ("B", ["A"])]

/-- A two-level forest: `P` has child `C`, which has child `D`; `C` is an
ordinary non-root node (it is listed as a child of its parent `P`). -/
def forestPCD : ChildrenMap := [("P", ["C"]), ("C", ["D"])]

/-- The preview produced by `prepareFinish envP "P" { force := true }`. -/
def c3preview : FinishPreview :=
  { target := docP
    affected := [docP, docC]
    finalStatus := .closed
    autoDetected := false
    warnings := ["Warning: Has 1 open children. Forcing status as requested."]
    requiresConfirmation := true
    forceRequired := none }

/-- The preview produced by `prepareFinish envC4 "T4" { status := some .closed }`. -/
def c4preview : FinishPreview :=
  { target := docT4
    affected := [docT4]
    finalStatus := .closed
    autoDetected := false
    warnings := []
    requiresConfirmation := false
    forceRequired := none }

/-- The frontmatter `fmT4` after a superseding finish: status `closed`, fresh timestamp, and
the superseding reference `"S"` appended to `depends_on`. -/
def fmT4Updated : StitchFrontmatter :=
  { id := "T4", title := "T4", status := .closed, created_at := "t0", updated_at := "t1",
    relations := some { depends_on := some ["S"] },
    git := some { links := some [.commit "def456"] } }

/-- A preview whose `forceRequired` field is set. -/
def blockedPreview : FinishPreview :=
  { target := docA
    affected := [docA]
    finalStatus := .abandoned
    autoDetected := true
    warnings := []
    requiresConfirmation := false
    forceRequired := some "Cannot set requested status when no linked commits." }

/-! Helper lemmas -/

theorem getDescendantsAux_sub (children : ChildrenMap) (qs vs acc : List StitchId) :
    acc ⊆ getDescendantsAux children qs vs acc := by
  induction qs, vs, acc using getDescendantsAux.induct children with
  | case1 vs acc =>
    rw [getDescendantsAux]
    exact fun x hx => hx
  | case2 currentId rest vs acc hvis ih =>
    rw [getDescendantsAux, if_pos hvis]
    exact ih
  | case3 currentId rest vs acc hvis cs =>
    rename_i ih
    rw [getDescendantsAux, if_neg hvis]
    exact fun x hx => ih (List.mem_append_left _ hx)

theorem getDescendantsAux_mem (children : ChildrenMap) (qs vs acc : List StitchId)
    (x : StitchId) (hx : x ∈ getDescendantsAux children qs vs acc) :
    x ∈ acc ∨ ∃ k, x ∈ lookupChildren children k ∧
      (k ∈ qs ∨ k ∈ getDescendantsAux children qs vs acc) := by
  induction qs, vs, acc using getDescendantsAux.induct children with
  | case1 vs acc =>
    rw [getDescendantsAux] at hx
    exact .inl hx
  | case2 currentId rest vs acc hvis ih =>
    rw [getDescendantsAux, if_pos hvis] at hx ⊢
    rcases ih hx with hacc | ⟨k, hk1, hk2⟩
    · exact .inl hacc
    · refine .inr ⟨k, hk1, ?_⟩
      rcases hk2 with hq | hr
      · exact .inl (List.mem_cons_of_mem currentId hq)
      · exact .inr hr
  | case3 currentId rest vs acc hvis cs ih =>
    rw [getDescendantsAux, if_neg hvis] at hx ⊢
    rcases ih hx with hacc | ⟨k, hk1, hk2⟩
    · rcases List.mem_append.mp hacc with h1 | h2
      · exact .inl h1
      · exact .inr ⟨currentId, h2, .inl (List.mem_cons_self currentId rest)⟩
    · refine .inr ⟨k, hk1, ?_⟩
      rcases hk2 with hq | hr
      · rcases List.mem_append.mp hq with h1 | h2
        · exact .inl (List.mem_cons_of_mem currentId h1)
        · exact .inr (getDescendantsAux_sub children
            (rest ++ lookupChildren children currentId) (currentId :: vs)
            (acc ++ lookupChildren children currentId)
            (List.mem_append_right acc h2))
      · exact .inr hr

theorem prepareFinish_no_sb (env : Env) (id : StitchId) (opts : FinishOptions)
    (target : StitchDoc) (hinit : env.initialized = true)
    (hsb : opts.supersededBy = none) (htgt : env.docs id = some target) :
    prepareFinish env id opts = .ok (mkPreviewFrom env id opts target) := by
  simp [prepareFinish, hinit, hsb, htgt]

theorem prepareFinish_ok {env : Env} {id : StitchId} {opts : FinishOptions}
    {p : FinishPreview} (h : prepareFinish env id opts = .ok p) :
    env.initialized = true ∧
      ∃ target, env.docs id = some target ∧ p = mkPreviewFrom env id opts target := by
  by_cases hinit : env.initialized = true
  · refine ⟨hinit, ?_⟩
    cases hsb : opts.supersededBy with
    | none =>
      cases htgt : env.docs id with
      | none => simp [prepareFinish, hinit, hsb, htgt] at h
      | some target =>
        refine ⟨target, rfl, ?_⟩
        rw [prepareFinish_no_sb env id opts target hinit hsb htgt] at h
        exact (Except.ok.inj h).symm
    | some sb =>
      by_cases hiv : opts.status.getD TerminalStatus.closed = TerminalStatus.superseded
      · cases hdoc : env.docs sb with
        | none => simp [prepareFinish, hinit, hsb, hdoc, hiv] at h
        | some d =>
          cases htgt : env.docs id with
          | none => simp [prepareFinish, hinit, hsb, hdoc, htgt, hiv] at h
          | some target =>
            refine ⟨target, rfl, ?_⟩
            simp only [prepareFinish, hinit, hsb, hdoc, htgt, hiv] at h
            simp at h
            exact h.symm
      · simp [prepareFinish, hinit, hsb, hiv] at h
  · have hfalse : env.initialized = false := by
      cases henv : env.initialized
      · rfl
      · exact absurd henv hinit
    simp [prepareFinish, hfalse] at h

theorem applyWritesAux_none (updates : List FinishUpdate) (i : Nat) (fs : FS) :
    ∃ fs1, applyWritesAux updates i none fs = .inl fs1 := by
  induction updates generalizing i fs with
  | nil => exact ⟨fs, rfl⟩
  | cons u rest ih =>
    simp only [applyWritesAux]
    exact ih (i + 1) (fsWrite fs u.filePath u.newContent)

theorem applyWritesAux_fail (updates : List FinishUpdate) (i k : Nat) (fs : FS)
    (hk : k < updates.length) :
    applyWritesAux updates i (some (i + k)) fs =
      .inr (i + k, forwardWrites (updates.take k) fs) := by
  induction updates generalizing i k fs with
  | nil => simp at hk
  | cons u rest ih =>
    match k with
    | 0 =>
      simp [applyWritesAux, forwardWrites]
    | k' + 1 =>
      rw [applyWritesAux,
        if_neg (by simp only [Option.some.injEq]; omega : ¬ (some (i + (k' + 1)) = some i))]
      have : i + (k' + 1) = (i + 1) + k' := by omega
      rw [this, ih (i + 1) k' (fsWrite fs u.filePath u.newContent)
        (by simp only [List.length_cons] at hk; omega)]
      simp [forwardWrites]

theorem forwardWrites_not_mem (updates : List FinishUpdate) (fs : FS) (p : String)
    (hp : p ∉ updates.map (fun u => u.filePath)) :
    forwardWrites updates fs p = fs p := by
  induction updates generalizing fs with
  | nil => rfl
  | cons u rest ih =>
    have hpu : p ≠ u.filePath := by
      intro h
      exact hp (by simp [h])
    have hprest : p ∉ rest.map (fun u => u.filePath) := by
      intro h
      exact hp (by simp [h])
    simp only [forwardWrites, List.foldl_cons]
    rw [show (rest.foldl (fun acc v => fsWrite acc v.filePath v.newContent)
        (fsWrite fs u.filePath u.newContent)) p =
        forwardWrites rest (fsWrite fs u.filePath u.newContent) p from rfl]
    rw [ih _ hprest]
    simp [fsWrite, hpu]

theorem rollbackWrites_restore (orig : FS) (written : List FinishUpdate) (i : Nat)
    (rbOk : Nat → Bool) (fs : FS)
    (horig : ∀ u ∈ written, u.originalContent = orig u.filePath)
    (hrb : ∀ j, rbOk j = true) (p : String) :
    rollbackWrites written i rbOk fs p =
      if p ∈ written.map (fun u => u.filePath) then orig p else fs p := by
  induction written generalizing i fs with
  | nil => simp [rollbackWrites]
  | cons u rest ih =>
    have hu : u.originalContent = orig u.filePath := horig u (by simp)
    have hrest : ∀ v ∈ rest, v.originalContent = orig v.filePath :=
      fun v hv => horig v (by simp [hv])
    simp only [rollbackWrites, hrb i, if_true]
    rw [ih (i + 1) _ hrest]
    by_cases hp : p ∈ rest.map (fun v => v.filePath)
    · simp [hp]
    · by_cases hpu : p = u.filePath
      · simp [hp, hpu, fsWrite, hu]
      · have : p ∉ (u :: rest).map (fun v => v.filePath) := by
          simp [hpu, hp]
        simp [hp, this, fsWrite, hpu]

theorem lookupChildren_addToChildren (m : ChildrenMap) (pid c q : StitchId) :
    lookupChildren (addToChildren m pid c) q =
      if q = pid then lookupChildren m q ++ [c] else lookupChildren m q := by
  induction m with
  | nil =>
    by_cases hq : q = pid
    · subst hq
      simp [lookupChildren, addToChildren]
    · have : (pid == q) = false := by
        simp only [beq_eq_false_iff_ne]
        exact fun h => hq h.symm
      simp [lookupChildren, addToChildren, List.find?, this, hq]
  | cons e rest ih =>
    obtain ⟨k, cs⟩ := e
    by_cases hk : k = pid
    · subst hk
      simp only [addToChildren, beq_self_eq_true, if_true]
      by_cases hq : q = k
      · subst hq
        simp [lookupChildren, List.find?]
      · have : (k == q) = false := by
          simp only [beq_eq_false_iff_ne]
          exact fun h => hq h.symm
        simp [lookupChildren, List.find?, this, hq]
    · have hkb : (k == pid) = false := by simp [hk]
      simp only [addToChildren, hkb, Bool.false_eq_true, if_false]
      by_cases hq : q = k
      · subst hq
        rw [if_neg hk]
        simp [lookupChildren, List.find?]
      · have : (k == q) = false := by
          simp only [beq_eq_false_iff_ne]
          exact fun h => hq h.symm
        simp only [lookupChildren, List.find?, this]
        exact ih

theorem lookupChildren_rebuild_foldl (docs : List StitchDoc) (m : ChildrenMap) (p : StitchId) :
    lookupChildren
      (docs.foldl
        (fun m doc =>
          match doc.frontmatter.relations.bind (fun r => r.parent) with
          | some parentId => addToChildren m parentId doc.frontmatter.id
          | none => m)
        m) p =
    lookupChildren m p ++
      docs.filterMap
        (fun d =>
          if d.frontmatter.relations.bind (fun r => r.parent) = some p
          then some d.frontmatter.id else none) := by
  induction docs generalizing m with
  | nil => simp
  | cons d rest ih =>
    simp only [List.foldl_cons, List.filterMap_cons]
    cases hpar : d.frontmatter.relations.bind (fun r => r.parent) with
    | none =>
      simp only [hpar]
      rw [ih]
      simp
    | some pid =>
      simp only [hpar]
      rw [ih, lookupChildren_addToChildren]
      by_cases hpp : p = pid
      · subst hpp
        simp [List.append_assoc]
      · have : ¬ (some pid = some p) := by
          simp only [Option.some.injEq]
          exact fun h => hpp h.symm
        rw [if_neg hpp, if_neg this]

theorem rebuildIndex_lookup (docs : List StitchDoc) (p : StitchId) :
    lookupChildren (rebuildIndex docs) p =
      docs.filterMap
        (fun d =>
          if d.frontmatter.relations.bind (fun r => r.parent) = some p
          then some d.frontmatter.id else none) := by
  unfold rebuildIndex
  rw [lookupChildren_rebuild_foldl]
  simp [lookupChildren]

theorem mkUpdate_originalContent (finalStatus : TerminalStatus) (sb : Option StitchId)
    (targetId : StitchId) (now : String) (fs : FS) (docs : List StitchDoc) :
    ∀ u ∈ docs.map (mkUpdate finalStatus sb targetId now fs),
      u.originalContent = fs u.filePath := by
  intro u hu
  rcases List.mem_map.mp hu with ⟨doc, _, rfl⟩
  rfl

/-! Claims -/

/-- C7, counterexample: on the cyclic children map
`[("A", ["B"]), ("B", ["A"])]`, `getDescendants "A"` returns `["B", "A"]`,
which contains the start id `"A"` itself — refuting the claim that the result
excludes `id` even when the map contains cycles (the visited set prevents
re-expansion, but `"A"` is still pushed into the result as a child of `"B"`). -/
theorem getDescendants_cycle_counterexample :
    getDescendants cyclicChildren "A" = ["B", "A"] ∧
      "A" ∈ getDescendants cyclicChildren "A" := by
  have h : getDescendants cyclicChildren "A" = ["B", "A"] := by
    simp [getDescendants, getDescendantsAux, cyclicChildren, lookupChildren]
  exact ⟨h, by rw [h]; simp⟩

/-- C7 (amended): `getDescendants` is the breadth-first traversal of the
children map from `id` with a visited set (so it terminates even on cyclic
maps, expanding each node at most once); it returns the empty list when `id`
has no children or is unknown, and it excludes `id` itself whenever no node
among `id` and the returned descendants lists `id` as a child — the only
nodes the traversal ever expands — which holds for every node of any
well-formed acyclic forest, where only the parent of `id` lists `id` and the
parent is never a descendant of `id`; `id` can appear in the result exactly
when the map contains a cycle back to `id`. -/
theorem getDescendants_spec (children : ChildrenMap) (id : StitchId) :
    (lookupChildren children id = [] → getDescendants children id = []) ∧
    ((∀ k, k = id ∨ k ∈ getDescendants children id →
        id ∉ lookupChildren children k) →
      id ∉ getDescendants children id) := by
  constructor
  · intro h
    simp [getDescendants, getDescendantsAux, h]
  · intro h hmem
    rw [getDescendants] at hmem
    rcases getDescendantsAux_mem children [id] [] [] id hmem with h1 | ⟨k, hk1, hk2⟩
    · cases h1
    · rcases hk2 with hq | hr
      · have hkid : k = id := by simpa using hq
        exact h k (.inl hkid) hk1
      · exact h k (.inr (by rw [getDescendants]; exact hr)) hk1

/-- Witness for C7 (amended) on the forest `P → C → D`: the ordinary non-root
node `C` is excluded from its own descendant list `["D"]`, and the unknown id
`"X"` yields the empty list. -/
theorem getDescendants_spec_witness :
    (getDescendants forestPCD "C" = ["D"]) ∧
    (∀ k, k = "C" ∨ k ∈ getDescendants forestPCD "C" →
      "C" ∉ lookupChildren forestPCD k) ∧
    (lookupChildren forestPCD "X" = []) ∧
    (getDescendants forestPCD "X" = []) ∧
    ("C" ∉ getDescendants forestPCD "C") := by
  have hres : getDescendants forestPCD "C" = ["D"] := by
    simp [getDescendants, getDescendantsAux, forestPCD, lookupChildren]
  have hhyp : ∀ k, k = "C" ∨ k ∈ getDescendants forestPCD "C" →
      "C" ∉ lookupChildren forestPCD k := by
    intro k hk
    rw [hres] at hk
    rcases hk with rfl | hk
    · decide
    · have hkD : k = "D" := by simpa using hk
      subst hkD
      decide
  refine ⟨hres, hhyp, by decide, ?_, ?_⟩
  · exact (getDescendants_spec forestPCD "X").1 (by decide)
  · exact (getDescendants_spec forestPCD "C").2 hhyp

/-- C9: `rebuildIndex` groups the scanned documents by `relations.parent`
(the child list of each parent is exactly the scan-order sequence of ids of
documents naming it as parent), and two rebuilds over the same document set —
scanned in possibly different orders — produce children maps that agree up to
the order within each child list. -/
theorem rebuildIndex_idempotent (docs1 docs2 : List StitchDoc)
    (h : docs1.Perm docs2) (p : StitchId) :
    lookupChildren (rebuildIndex docs1) p =
      docs1.filterMap
        (fun d =>
          if d.frontmatter.relations.bind (fun r => r.parent) = some p
          then some d.frontmatter.id else none) ∧
    (lookupChildren (rebuildIndex docs1) p).Perm
      (lookupChildren (rebuildIndex docs2) p) := by
  refine ⟨rebuildIndex_lookup docs1 p, ?_⟩
  rw [rebuildIndex_lookup, rebuildIndex_lookup]
  exact h.filterMap _

/-- Witness for C9 on the two-document store scanned in both orders. -/
theorem rebuildIndex_idempotent_witness :
    ([docP, docC].Perm [docC, docP]) ∧
    (lookupChildren (rebuildIndex [docP, docC]) "P" =
      [docP, docC].filterMap
        (fun d =>
          if d.frontmatter.relations.bind (fun r => r.parent) = some "P"
          then some d.frontmatter.id else none) ∧
    (lookupChildren (rebuildIndex [docP, docC]) "P").Perm
      (lookupChildren (rebuildIndex [docC, docP]) "P")) :=
  ⟨by decide, rebuildIndex_idempotent [docP, docC] [docC, docP] (by decide) "P"⟩

/-- C1: when the k-th forward write fails (k < number of affected documents),
`executeFinish` propagates the original write failure whatever happens to the
rollback writes (rollback failures are swallowed, never escalated), and when
the rollback writes succeed every path of the file system — in particular
every affected document — holds its pre-operation content again. -/
theorem executeFinish_atomic (preview : FinishPreview) (opts : FinishOptions)
    (now : String) (fs : FS) (k : Nat) (rbOk : Nat → Bool)
    (hfr : preview.forceRequired = none)
    (hk : k < preview.affected.length) :
    (executeFinish preview opts now fs (some k) rbOk).1 =
        .error (.ioFailure k) ∧
    ((∀ j, rbOk j = true) →
      ∀ path, (executeFinish preview opts now fs (some k) rbOk).2 path = fs path) := by
  have hlen : k < (preview.affected.map
      (mkUpdate preview.finalStatus opts.supersededBy
        preview.target.frontmatter.id now fs)).length := by
    simpa using hk
  have hfail := applyWritesAux_fail (preview.affected.map
      (mkUpdate preview.finalStatus opts.supersededBy
        preview.target.frontmatter.id now fs)) 0 k fs hlen
  rw [Nat.zero_add] at hfail
  have hexec : executeFinish preview opts now fs (some k) rbOk =
      (.error (.ioFailure k),
        rollbackWrites
          ((preview.affected.map
            (mkUpdate preview.finalStatus opts.supersededBy
              preview.target.frontmatter.id now fs)).take k) 0 rbOk
          (forwardWrites
            ((preview.affected.map
              (mkUpdate preview.finalStatus opts.supersededBy
                preview.target.frontmatter.id now fs)).take k) fs)) := by
    simp only [executeFinish, hfr]
    rw [hfail]
  have h2 : (executeFinish preview opts now fs (some k) rbOk).2 =
      rollbackWrites
        ((preview.affected.map
          (mkUpdate preview.finalStatus opts.supersededBy
            preview.target.frontmatter.id now fs)).take k) 0 rbOk
        (forwardWrites
          ((preview.affected.map
            (mkUpdate preview.finalStatus opts.supersededBy
              preview.target.frontmatter.id now fs)).take k) fs) := by
    rw [hexec]
  refine ⟨by rw [hexec], ?_⟩
  intro hrb path
  rw [h2]
  have horig : ∀ u ∈ (preview.affected.map
      (mkUpdate preview.finalStatus opts.supersededBy
        preview.target.frontmatter.id now fs)).take k,
      u.originalContent = fs u.filePath := by
    intro u hu
    exact mkUpdate_originalContent _ _ _ _ _ _ u (List.take_subset _ _ hu)
  rw [rollbackWrites_restore fs _ 0 rbOk _ horig hrb path]
  by_cases hp : path ∈ ((preview.affected.map
      (mkUpdate preview.finalStatus opts.supersededBy
        preview.target.frontmatter.id now fs)).take k).map (fun u => u.filePath)
  · rw [if_pos hp]
  · rw [if_neg hp]
    exact forwardWrites_not_mem _ _ _ hp

/-- Witness for C1: failing the 0-th write of a one-document finish leaves
the file system untouched and surfaces the I/O failure. -/
theorem executeFinish_atomic_witness :
    (c4preview.forceRequired = none) ∧ (0 < c4preview.affected.length) ∧
    ((executeFinish c4preview {} "t1" fsInit (some 0) rbAllOk).1 =
        .error (.ioFailure 0) ∧
      ((∀ j, rbAllOk j = true) →
        ∀ path,
          (executeFinish c4preview {} "t1" fsInit (some 0) rbAllOk).2 path =
            fsInit path)) :=
  ⟨rfl, by decide,
    executeFinish_atomic c4preview {} "t1" fsInit 0 rbAllOk rfl (by decide)⟩

/-- C5: when the `forceRequired` field of a preview is set and the caller did not pass
the override flag, `executeFinish` fails immediately with the force-required
error and the file system is unchanged (no writes); and `prepareFinish`
always returns `forceRequired` unset when the `force` option was passed. -/
theorem forceRequired_guard (preview : FinishPreview) (opts : FinishOptions)
    (now : String) (fs : FS) (failAt : Option Nat) (rbOk : Nat → Bool) (msg : String)
    (env : Env) (id : StitchId) (opts2 : FinishOptions) (p : FinishPreview) :
    (preview.forceRequired = some msg → opts.force = false →
      executeFinish preview opts now fs failAt rbOk =
        (.error (.forceRequired msg), fs)) ∧
    (opts2.force = true → prepareFinish env id opts2 = .ok p →
      p.forceRequired = none) := by
  constructor
  · intro hfr _
    simp [executeFinish, hfr]
  · intro hforce hok
    obtain ⟨-, target, -, rfl⟩ := prepareFinish_ok hok
    simp [mkPreviewFrom, hforce]

/-- Witness for C5: a blocked preview executed without force, and a forced
prepare of `docA`. -/
theorem forceRequired_guard_witness :
    (blockedPreview.forceRequired =
      some "Cannot set requested status when no linked commits.") ∧
    (({} : FinishOptions).force = false) ∧
    (({ force := true } : FinishOptions).force = true) ∧
    (prepareFinish envA "A" { force := true } =
      .ok (mkPreviewFrom envA "A" { force := true } docA)) ∧
    (executeFinish blockedPreview {} "t1" fsInit none rbAllOk =
      (.error (.forceRequired "Cannot set requested status when no linked commits."),
        fsInit)) ∧
    ((mkPreviewFrom envA "A" { force := true } docA).forceRequired = none) := by
  have hprep : prepareFinish envA "A" { force := true } =
      .ok (mkPreviewFrom envA "A" { force := true } docA) :=
    prepareFinish_no_sb envA "A" _ docA rfl rfl (by decide)
  refine ⟨rfl, rfl, rfl, hprep, ?_, ?_⟩
  · exact (forceRequired_guard blockedPreview {} "t1" fsInit none rbAllOk
      "Cannot set requested status when no linked commits." envA "A" { force := true }
      (mkPreviewFrom envA "A" { force := true } docA)).1 rfl rfl
  · exact (forceRequired_guard blockedPreview {} "t1" fsInit none rbAllOk
      "Cannot set requested status when no linked commits." envA "A" { force := true }
      (mkPreviewFrom envA "A" { force := true } docA)).2 rfl hprep

/-- C2: a target with no linked commits (empty or absent `git.links`;
fingerprints do not count, since `hasLinkedCommits` never consults them) and
no descendants, prepared with requested status `closed` and no force flag,
yields a preview with `finalStatus = abandoned`, `autoDetected`,
`forceRequired` set and a non-empty warning list; the same target prepared
with requested status `abandoned` yields `forceRequired` unset. -/
theorem autoDetect_deterministic (env : Env) (id : StitchId) (target : StitchDoc)
    (hinit : env.initialized = true)
    (htgt : env.docs id = some target)
    (hnl : hasLinkedCommits target = false)
    (hnd : getDescendants env.children id = []) :
    (∃ p, prepareFinish env id { status := some .closed } = .ok p ∧
      p.finalStatus = .abandoned ∧ p.autoDetected = true ∧
      p.forceRequired.isSome = true ∧ p.warnings ≠ []) ∧
    (∃ q, prepareFinish env id { status := some .abandoned } = .ok q ∧
      q.forceRequired = none) := by
  constructor
  · refine ⟨mkPreviewFrom env id { status := some .closed } target,
      prepareFinish_no_sb env id _ target hinit rfl htgt, ?_, ?_, ?_, ?_⟩
    all_goals
      simp [mkPreviewFrom, hnd, loadDescendants, shouldAutoAbandon, hnl, resolveStatus]
  · refine ⟨mkPreviewFrom env id { status := some .abandoned } target,
      prepareFinish_no_sb env id _ target hinit rfl htgt, ?_⟩
    simp [mkPreviewFrom, hnd, loadDescendants, shouldAutoAbandon, hnl, resolveStatus]

/-- Witness for C2: document `A` with no links and no children. -/
theorem autoDetect_deterministic_witness :
    (envA.initialized = true) ∧ (envA.docs "A" = some docA) ∧
    (hasLinkedCommits docA = false) ∧ (getDescendants envA.children "A" = []) ∧
    ((∃ p, prepareFinish envA "A" { status := some .closed } = .ok p ∧
      p.finalStatus = .abandoned ∧ p.autoDetected = true ∧
      p.forceRequired.isSome = true ∧ p.warnings ≠ []) ∧
    (∃ q, prepareFinish envA "A" { status := some .abandoned } = .ok q ∧
      q.forceRequired = none)) :=
  ⟨rfl, by decide, by decide,
    by simp [envA, getDescendants, getDescendantsAux, lookupChildren],
    autoDetect_deterministic envA "A" docA rfl (by decide) (by decide)
      (by simp [envA, getDescendants, getDescendantsAux, lookupChildren])⟩

/-- C8: for every successful `prepareFinish`, `requiresConfirmation` holds iff
the affected list has at least two documents; with zero descendants it is
always false. -/
theorem requiresConfirmation_iff (env : Env) (id : StitchId) (opts : FinishOptions)
    (p : FinishPreview) (h : prepareFinish env id opts = .ok p) :
    (p.requiresConfirmation = true ↔ 2 ≤ p.affected.length) ∧
    (getDescendants env.children id = [] → p.requiresConfirmation = false) := by
  obtain ⟨-, target, -, rfl⟩ := prepareFinish_ok h
  constructor
  · have hrc : (mkPreviewFrom env id opts target).requiresConfirmation =
        decide (2 ≤ (mkPreviewFrom env id opts target).affected.length) := rfl
    rw [hrc]
    exact decide_eq_true_iff
  · intro hnd
    simp [mkPreviewFrom, hnd, loadDescendants]

/-- Witness for C8: preparing leaf document `A`. -/
theorem requiresConfirmation_iff_witness :
    (prepareFinish envA "A" { status := some .abandoned } =
      .ok (mkPreviewFrom envA "A" { status := some .abandoned } docA)) ∧
    (((mkPreviewFrom envA "A" { status := some .abandoned } docA).requiresConfirmation
        = true ↔
      2 ≤ (mkPreviewFrom envA "A" { status := some .abandoned } docA).affected.length) ∧
    (getDescendants envA.children "A" = [] →
      (mkPreviewFrom envA "A" { status := some .abandoned } docA).requiresConfirmation
        = false)) := by
  have hprep : prepareFinish envA "A" { status := some .abandoned } =
      .ok (mkPreviewFrom envA "A" { status := some .abandoned } docA) :=
    prepareFinish_no_sb envA "A" _ docA rfl rfl (by decide)
  exact ⟨hprep, requiresConfirmation_iff envA "A" _ _ hprep⟩

/-- C6: a `supersededBy` reference with a requested status other than
`superseded` is a hard validation error, and a `supersededBy` reference to a
nonexistent document (with requested status `superseded`) fails with an error
naming the missing reference; both failures happen in `prepareFinish`, before
any write, so `finishStitch` returns the error with the file system
untouched. -/
theorem supersededBy_validation (env : Env) (id : StitchId) (opts : FinishOptions)
    (sb : StitchId) (now : String) (fs : FS) (failAt : Option Nat) (rbOk : Nat → Bool)
    (hinit : env.initialized = true) :
    (opts.supersededBy = some sb →
      opts.status.getD TerminalStatus.closed ≠ TerminalStatus.superseded →
      prepareFinish env id opts = .error .invalidSupersededBy ∧
      finishStitch env id opts now fs failAt rbOk =
        (.error .invalidSupersededBy, fs)) ∧
    (opts.supersededBy = some sb →
      opts.status.getD TerminalStatus.closed = TerminalStatus.superseded →
      env.docs sb = none →
      prepareFinish env id opts = .error (.supersedingNotFound sb) ∧
      finishStitch env id opts now fs failAt rbOk =
        (.error (.supersedingNotFound sb), fs)) := by
  constructor
  · intro hsb hst
    have hprep : prepareFinish env id opts = .error .invalidSupersededBy := by
      simp [prepareFinish, hinit, hsb, hst]
    exact ⟨hprep, by simp [finishStitch, hprep]⟩
  · intro hsb hst hdoc
    have hprep : prepareFinish env id opts = .error (.supersedingNotFound sb) := by
      simp [prepareFinish, hinit, hsb, hst, hdoc]
    exact ⟨hprep, by simp [finishStitch, hprep]⟩

/-- Witness for C6: a dangling superseding reference `"S"` against the store
of document `A`. -/
theorem supersededBy_validation_witness :
    (({ supersededBy := some "S" } : FinishOptions).supersededBy = some "S") ∧
    (({ supersededBy := some "S" } : FinishOptions).status.getD
        TerminalStatus.closed ≠ TerminalStatus.superseded) ∧
    (({ status := some .superseded, supersededBy := some "S" } :
        FinishOptions).status.getD TerminalStatus.closed =
      TerminalStatus.superseded) ∧
    (envA.docs "S" = none) ∧
    (prepareFinish envA "A" { supersededBy := some "S" } =
      .error .invalidSupersededBy) ∧
    (prepareFinish envA "A" { status := some .superseded, supersededBy := some "S" } =
      .error (.supersedingNotFound "S")) := by
  refine ⟨rfl, by decide, rfl, by decide, ?_, ?_⟩
  · exact ((supersededBy_validation envA "A" { supersededBy := some "S" } "S"
      "t1" fsInit none rbAllOk rfl).1 rfl (by decide)).1
  · exact ((supersededBy_validation envA "A"
      { status := some .superseded, supersededBy := some "S" } "S"
      "t1" fsInit none rbAllOk rfl).2 rfl rfl (by decide)).1

/-- C3, counterexample: for parent `P` (one linked commit) with open child
`C`, `prepareFinish(P, {force: true})` resolves `finalStatus` to `closed`
(the defaulted requested status), not `abandoned`: with the force flag the
engine keeps the requested status and only records a warning, and after
`executeFinish` both documents are `closed` on disk, refuting the claimed
`abandoned` outcome. -/
theorem force_with_open_child_counterexample :
    prepareFinish envP "P" { force := true } = .ok c3preview ∧
    c3preview.finalStatus = TerminalStatus.closed ∧
    ¬ c3preview.finalStatus = TerminalStatus.abandoned ∧
    ((executeFinish c3preview { force := true } "t1" fsInit none rbAllOk).2
      "/s/P.md").1.status = StitchStatus.closed ∧
    ((executeFinish c3preview { force := true } "t1" fsInit none rbAllOk).2
      "/s/C.md").1.status = StitchStatus.closed ∧
    ¬ ((executeFinish c3preview { force := true } "t1" fsInit none rbAllOk).2
      "/s/P.md").1.status = StitchStatus.abandoned := by
  refine ⟨?_, by decide, by decide, by decide, by decide, by decide⟩
  have hdesc : getDescendants envP.children "P" = ["C"] := by
    simp [envP, getDescendants, getDescendantsAux, lookupChildren]
  have h := prepareFinish_no_sb envP "P" { force := true } docP rfl rfl (by decide)
  rw [h]
  have hmk : mkPreviewFrom envP "P" { force := true } docP = c3preview := by
    simp only [mkPreviewFrom, hdesc]
    decide
  rw [hmk]

/-- C3 (amended): for a parent with at least one linked commit and a single
open child, `prepareFinish` with the force flag and no explicit status keeps
the defaulted requested status `closed` — the force flag suppresses both the
hard stop and the auto-downgrade, recording a warning instead — and after
`executeFinish` both parent and child are `closed` on disk. -/
theorem force_with_open_child (env : Env) (pid cid : StitchId) (dP dC : StitchDoc)
    (now : String) (fs : FS) (rbOk : Nat → Bool)
    (hinit : env.initialized = true)
    (hP : env.docs pid = some dP)
    (hlink : hasLinkedCommits dP = true)
    (hdesc : getDescendants env.children pid = [cid])
    (hC : env.docs cid = some dC)
    (hopen : dC.frontmatter.status = StitchStatus.«open») :
    ∃ p, prepareFinish env pid { force := true } = .ok p ∧
      p.finalStatus = TerminalStatus.closed ∧ p.forceRequired = none ∧
      p.warnings ≠ [] ∧ p.affected = [dP, dC] ∧
      ((executeFinish p { force := true } now fs none rbOk).2
        dP.filePath).1.status = StitchStatus.closed ∧
      ((executeFinish p { force := true } now fs none rbOk).2
        dC.filePath).1.status = StitchStatus.closed := by
  refine ⟨mkPreviewFrom env pid { force := true } dP,
    prepareFinish_no_sb env pid _ dP hinit rfl hP, ?_, ?_, ?_, ?_, ?_, ?_⟩
  · simp [mkPreviewFrom, hdesc, loadDescendants, hC, shouldAutoAbandon, hlink, hopen,
      resolveStatus, List.filter_cons, List.filter_nil]
  · simp [mkPreviewFrom]
  · simp [mkPreviewFrom, hdesc, loadDescendants, hC, shouldAutoAbandon, hlink, hopen,
      resolveStatus, List.filter_cons, List.filter_nil]
  · simp [mkPreviewFrom, hdesc, loadDescendants, hC, shouldAutoAbandon, hlink, hopen,
      resolveStatus, TerminalStatus.toStatus, List.filter_cons, List.filter_nil]
  all_goals {
    have hfr : (mkPreviewFrom env pid { force := true } dP).forceRequired = none := by
      simp [mkPreviewFrom]
    have haff : (mkPreviewFrom env pid { force := true } dP).affected = [dP, dC] := by
      simp [mkPreviewFrom, hdesc, loadDescendants, hC, shouldAutoAbandon, hlink, hopen,
        resolveStatus, TerminalStatus.toStatus, List.filter_cons, List.filter_nil]
    have hfin : (mkPreviewFrom env pid { force := true } dP).finalStatus =
        TerminalStatus.closed := by
      simp [mkPreviewFrom, hdesc, loadDescendants, hC, shouldAutoAbandon, hlink, hopen,
        resolveStatus, List.filter_cons, List.filter_nil]
    have hexec : (executeFinish (mkPreviewFrom env pid { force := true } dP)
        { force := true } now fs none rbOk).2 =
        fsWrite
          (fsWrite fs dP.filePath
            (serializeStitchFile
              (mkUpdatedFrontmatter TerminalStatus.closed none
                (mkPreviewFrom env pid { force := true } dP).target.frontmatter.id
                now dP.frontmatter) dP.body))
          dC.filePath
          (serializeStitchFile
            (mkUpdatedFrontmatter TerminalStatus.closed none
              (mkPreviewFrom env pid { force := true } dP).target.frontmatter.id
              now dC.frontmatter) dC.body) := by
      simp only [executeFinish, hfr, haff, hfin]
      simp [applyWritesAux, mkUpdate, List.map]
    rw [hexec]
    by_cases hpp : dP.filePath = dC.filePath <;>
      simp [fsWrite, hpp, serializeStitchFile, mkUpdatedFrontmatter, updateTimestamp,
        TerminalStatus.toStatus]
  }

/-- Witness for C3 (amended) on the concrete parent-child store `envP`. -/
theorem force_with_open_child_witness :
    (envP.initialized = true) ∧ (envP.docs "P" = some docP) ∧
    (hasLinkedCommits docP = true) ∧ (getDescendants envP.children "P" = ["C"]) ∧
    (envP.docs "C" = some docC) ∧ (docC.frontmatter.status = StitchStatus.«open») ∧
    (∃ p, prepareFinish envP "P" { force := true } = .ok p ∧
      p.finalStatus = TerminalStatus.closed ∧ p.forceRequired = none ∧
      p.warnings ≠ [] ∧ p.affected = [docP, docC] ∧
      ((executeFinish p { force := true } "t1" fsInit none rbAllOk).2
        docP.filePath).1.status = StitchStatus.closed ∧
      ((executeFinish p { force := true } "t1" fsInit none rbAllOk).2
        docC.filePath).1.status = StitchStatus.closed) :=
  ⟨rfl, by decide, by decide,
    by simp [envP, getDescendants, getDescendantsAux, lookupChildren],
    by decide, by decide,
    force_with_open_child envP "P" "C" docP docC "t1" fsInit rbAllOk rfl (by decide)
      (by decide) (by simp [envP, getDescendants, getDescendantsAux, lookupChildren])
      (by decide) (by decide)⟩

/-- C4, counterexample: descendant `D4` already has the resolved status
`closed`; it is excluded from the affected (write) set, as the claim says,
but it is also absent from the finished report of the operation — refuting the
"but not from reporting" part: already-matching descendants are excluded
from the write set AND from the reported finished list alike. -/
theorem affected_set_counterexample :
    prepareFinish envC4 "T4" { status := some .closed } = .ok c4preview ∧
    "D4" ∈ getDescendants envC4.children "T4" ∧
    envC4.docs "D4" = some docD4 ∧
    docD4.frontmatter.status = c4preview.finalStatus.toStatus ∧
    c4preview.affected.map (fun d => d.frontmatter.id) = ["T4"] ∧
    ((executeFinish c4preview {} "t1" fsInit none rbAllOk).1.map
      (fun r => r.finished.map (fun f => f.id))) = .ok ["T4"] := by
  refine ⟨?_, ?_, by decide, by decide, by decide, rfl⟩
  · have hdesc : getDescendants envC4.children "T4" = ["D4"] := by
      simp [envC4, getDescendants, getDescendantsAux, lookupChildren]
    have h := prepareFinish_no_sb envC4 "T4" { status := some .closed } docT4
      rfl rfl (by decide)
    rw [h]
    have hmk : mkPreviewFrom envC4 "T4" { status := some .closed } docT4 = c4preview := by
      simp only [mkPreviewFrom, hdesc]
      decide
    rw [hmk]
  · simp [envC4, getDescendants, getDescendantsAux, lookupChildren]

/-- C4 (amended): for every successful `prepareFinish`, the affected list is
exactly the target followed by every loadable descendant whose current status
differs from the resolved final status; descendants already matching the
resolved status are excluded both from the write set and from the finished
report (which `executeFinish` derives from the same affected list); the
target is always included, even when its status already matches. -/
theorem affected_set_char (env : Env) (id : StitchId) (opts : FinishOptions)
    (p : FinishPreview) (h : prepareFinish env id opts = .ok p)
    (opts2 : FinishOptions) (now : String) (fs : FS) (rbOk : Nat → Bool) :
    env.docs id = some p.target ∧
    p.affected = p.target ::
      (loadDescendants env (getDescendants env.children id)).1.filter
        (fun d => d.frontmatter.status ≠ p.finalStatus.toStatus) ∧
    (p.forceRequired = none →
      (executeFinish p opts2 now fs none rbOk).1 =
        .ok { finished := p.affected.map (mkFinished p.finalStatus)
              warnings := p.warnings
              autoDetectedStatus := p.autoDetected
              finalStatus := p.finalStatus }) := by
  obtain ⟨hinit, target, htgt, rfl⟩ := prepareFinish_ok h
  refine ⟨htgt, rfl, ?_⟩
  intro hfr
  obtain ⟨fs1, hfs1⟩ := applyWritesAux_none
    ((mkPreviewFrom env id opts target).affected.map
      (mkUpdate (mkPreviewFrom env id opts target).finalStatus opts2.supersededBy
        (mkPreviewFrom env id opts target).target.frontmatter.id now fs)) 0 fs
  simp only [executeFinish, hfr]
  rw [hfs1]

/-- Witness for C4 (amended): preparing leaf document `A` as `abandoned` and
executing the resulting preview. -/
theorem affected_set_char_witness :
    (prepareFinish envA "A" { status := some .abandoned } =
      .ok (mkPreviewFrom envA "A" { status := some .abandoned } docA)) ∧
    (envA.docs "A" =
      some (mkPreviewFrom envA "A" { status := some .abandoned } docA).target ∧
    (mkPreviewFrom envA "A" { status := some .abandoned } docA).affected =
      (mkPreviewFrom envA "A" { status := some .abandoned } docA).target ::
        (loadDescendants envA (getDescendants envA.children "A")).1.filter
          (fun d => d.frontmatter.status ≠
            (mkPreviewFrom envA "A"
              { status := some .abandoned } docA).finalStatus.toStatus) ∧
    ((mkPreviewFrom envA "A" { status := some .abandoned } docA).forceRequired = none →
      (executeFinish (mkPreviewFrom envA "A" { status := some .abandoned } docA)
        {} "t1" fsInit none rbAllOk).1 =
        .ok { finished :=
                (mkPreviewFrom envA "A"
                  { status := some .abandoned } docA).affected.map
                  (mkFinished (mkPreviewFrom envA "A"
                    { status := some .abandoned } docA).finalStatus)
              warnings :=
                (mkPreviewFrom envA "A" { status := some .abandoned } docA).warnings
              autoDetectedStatus :=
                (mkPreviewFrom envA "A" { status := some .abandoned } docA).autoDetected
              finalStatus :=
                (mkPreviewFrom envA "A"
                  { status := some .abandoned } docA).finalStatus })) := by
  have hprep : prepareFinish envA "A" { status := some .abandoned } =
      .ok (mkPreviewFrom envA "A" { status := some .abandoned } docA) :=
    prepareFinish_no_sb envA "A" _ docA rfl rfl (by decide)
  exact ⟨hprep, affected_set_char envA "A" _ _ hprep {} "t1" fsInit rbAllOk⟩

/-- C10: the per-document update computed by `executeFinish` preserves the id of the document, its title, created_at, provenance, confidence, tags, scope, git
links and fingerprints, body, file path, and `relations.parent`; only
`status` (set to the resolved final status) and `updated_at` change, plus
`relations.depends_on` — and that only on the target document when a
`supersededBy` reference is supplied, appended with deduplication. -/
theorem executeFinish_frame (preview : FinishPreview) (opts : FinishOptions)
    (now : String) (fs : FS) (doc : StitchDoc) (fm2 : StitchFrontmatter)
    (hdoc : doc ∈ preview.affected)
    (hfm : fm2 = mkUpdatedFrontmatter preview.finalStatus opts.supersededBy
      preview.target.frontmatter.id now doc.frontmatter) :
    (mkUpdate preview.finalStatus opts.supersededBy
      preview.target.frontmatter.id now fs doc).newContent = (fm2, doc.body) ∧
    (mkUpdate preview.finalStatus opts.supersededBy
      preview.target.frontmatter.id now fs doc).filePath = doc.filePath ∧
    fm2.id = doc.frontmatter.id ∧
    fm2.title = doc.frontmatter.title ∧
    fm2.created_at = doc.frontmatter.created_at ∧
    fm2.provenance = doc.frontmatter.provenance ∧
    fm2.confidence = doc.frontmatter.confidence ∧
    fm2.tags = doc.frontmatter.tags ∧
    fm2.scope = doc.frontmatter.scope ∧
    fm2.git = doc.frontmatter.git ∧
    fm2.status = preview.finalStatus.toStatus ∧
    fm2.updated_at = now ∧
    fm2.relations.bind (fun r => r.parent) =
      doc.frontmatter.relations.bind (fun r => r.parent) ∧
    (opts.supersededBy = none → fm2.relations = doc.frontmatter.relations) ∧
    (doc.frontmatter.id ≠ preview.target.frontmatter.id →
      fm2.relations = doc.frontmatter.relations) ∧
    (∀ sb, opts.supersededBy = some sb →
      doc.frontmatter.id = preview.target.frontmatter.id →
      (fm2.relations.getD {}).depends_on.getD [] =
        (if sb ∈ (doc.frontmatter.relations.getD {}).depends_on.getD []
         then (doc.frontmatter.relations.getD {}).depends_on.getD []
         else (doc.frontmatter.relations.getD {}).depends_on.getD [] ++ [sb])) := by
  subst hfm
  cases hsb : opts.supersededBy with
  | none =>
    simp [mkUpdate, mkUpdatedFrontmatter, updateTimestamp, serializeStitchFile]
  | some sb0 =>
    by_cases hid : doc.frontmatter.id = preview.target.frontmatter.id
    · by_cases hmem : sb0 ∈ ((doc.frontmatter.relations.getD {}).depends_on).getD []
      · simp [mkUpdate, mkUpdatedFrontmatter, updateTimestamp, serializeStitchFile,
          hid, hmem]
      · simp [mkUpdate, mkUpdatedFrontmatter, updateTimestamp, serializeStitchFile,
          hid, hmem]
        cases hrel : doc.frontmatter.relations with
        | none => simp
        | some r => simp
    · simp [mkUpdate, mkUpdatedFrontmatter, updateTimestamp, serializeStitchFile, hid]

/-- Witness for C10: updating target `T4` with a superseding reference
`"S"`. -/
theorem executeFinish_frame_witness :
    (docT4 ∈ c4preview.affected) ∧
    (fmT4Updated = mkUpdatedFrontmatter c4preview.finalStatus (some "S")
      c4preview.target.frontmatter.id "t1" docT4.frontmatter) ∧
    ((mkUpdate c4preview.finalStatus (some "S")
      c4preview.target.frontmatter.id "t1" fsInit docT4).newContent =
        (fmT4Updated, docT4.body) ∧
    (mkUpdate c4preview.finalStatus (some "S")
      c4preview.target.frontmatter.id "t1" fsInit docT4).filePath = docT4.filePath ∧
    fmT4Updated.id = docT4.frontmatter.id ∧
    fmT4Updated.title = docT4.frontmatter.title ∧
    fmT4Updated.created_at = docT4.frontmatter.created_at ∧
    fmT4Updated.provenance = docT4.frontmatter.provenance ∧
    fmT4Updated.confidence = docT4.frontmatter.confidence ∧
    fmT4Updated.tags = docT4.frontmatter.tags ∧
    fmT4Updated.scope = docT4.frontmatter.scope ∧
    fmT4Updated.git = docT4.frontmatter.git ∧
    fmT4Updated.status = c4preview.finalStatus.toStatus ∧
    fmT4Updated.updated_at = "t1" ∧
    fmT4Updated.relations.bind (fun r => r.parent) =
      docT4.frontmatter.relations.bind (fun r => r.parent) ∧
    (some "S" = none → fmT4Updated.relations = docT4.frontmatter.relations) ∧
    (docT4.frontmatter.id ≠ c4preview.target.frontmatter.id →
      fmT4Updated.relations = docT4.frontmatter.relations) ∧
    (∀ sb, some "S" = some sb →
      docT4.frontmatter.id = c4preview.target.frontmatter.id →
      (fmT4Updated.relations.getD {}).depends_on.getD [] =
        (if sb ∈ (docT4.frontmatter.relations.getD {}).depends_on.getD []
         then (docT4.frontmatter.relations.getD {}).depends_on.getD []
         else (docT4.frontmatter.relations.getD {}).depends_on.getD [] ++ [sb]))) :=
  ⟨by decide, by decide,
    executeFinish_frame c4preview { status := some .superseded, supersededBy := some "S" }
      "t1" fsInit docT4 fmT4Updated (by decide) (by decide)⟩
